import Mathlib

/-!
# Verification of the `zhmlst/chat` protocol core

A shallow embedding, in Lean 4, of the parts of the `zhmlst/chat` Go
repository that the specification's claims are about:

* the fixed-header binary framing codec (`internal/msg/msg.go`);
* the client- and server-side handshake state machines (`session.go`);
* the server lifecycle operations `Stop` and `Shutdown` (`server.go`);
* the connection close codes (`codes/codes.go`).

Bytes are modelled as `Nat` values (`< 256` for every byte produced by the
code itself; Go's `byte(x)` casts become `x % 256`).  A byte stream source
is modelled as the list of bytes it will deliver: a single `Read` into a
buffer of size `k` returns the first `min k remaining` bytes and removes
them from the source, and a `Read` on an exhausted source fails with EOF.
A byte sink accepts every write in full (Go's `io.Writer` on a healthy
stream), so `writeFull` is list append.
-/

namespace Chat

namespace Msg

/-- Header length of the wire codec, `hdrLen = 53` in `internal/msg/msg.go`. -/
def hdrLen : Nat := 53

/-- Offset of the type field (`offType` in `internal/msg/msg.go`). -/
def offType : Nat := 0

/-- Offset of the length field (`offLen`). -/
def offLen : Nat := 1

/-- Offset of the timestamp field (`offTS`). -/
def offTS : Nat := 5

/-- Offset of the id field (`offID`). -/
def offID : Nat := 21

/-- Offset of the token field (`offTok`). -/
def offTok : Nat := 37

/-- Chunk buffer size used by the payload iterator (`buflen = 4096`). -/
def buflen : Nat := 4096

/-- Overwrite the bytes of `dst` starting at offset `off` with `src`.
This models both Go's indexed byte stores (`m.hdr[off] = b`, a one-byte
`src`) and `copy(m.hdr[off:off+k], src)` on the header array. -/
def copyAt (off : Nat) (src dst : List Nat) : List Nat :=
  dst.take off ++ src ++ dst.drop (off + src.length)

/-- Read `k` bytes of `h` starting at offset `off` (Go's `m.hdr[off:off+k]`). -/
def readAt (off k : Nat) (h : List Nat) : List Nat :=
  (h.drop off).take k

/-- Big-endian value of a byte list: how the getters in `internal/msg/msg.go`
assemble `uint32(b0)<<24 | uint32(b1)<<16 | ...`.  All bytes stored by the
setters are `< 256`, where bitwise or of the disjoint shifted bytes equals
this sum. -/
def beVal (bs : List Nat) : Nat :=
  bs.foldl (fun a b => a * 256 + b) 0

/-- The four bytes written by `Message.SetLen`:
`byte(v >> 24), byte(v >> 16), byte(v >> 8), byte(v)` for a `uint32` `v`
(hence each byte is the corresponding byte of `v % 2^32`). -/
def lenBytes (v : Nat) : List Nat :=
  [v / 2 ^ 24 % 256, v / 2 ^ 16 % 256, v / 2 ^ 8 % 256, v % 256]

/-- The eight bytes written by `Message.setTimestamp`:
`byte(ms >> (56 - 8*i))` for `i = 0..7` on a `uint64` `ms`. -/
def tsBytes (ms : Nat) : List Nat :=
  [ms / 2 ^ 56 % 256, ms / 2 ^ 48 % 256, ms / 2 ^ 40 % 256, ms / 2 ^ 32 % 256,
   ms / 2 ^ 24 % 256, ms / 2 ^ 16 % 256, ms / 2 ^ 8 % 256, ms % 256]

/-- `Message.SetType`: `m.hdr[offType] = byte(typ)`. -/
def setType (t : Nat) (h : List Nat) : List Nat :=
  copyAt offType [t % 256] h

/-- `Message.SetLen`: stores the length as four big-endian bytes at `offLen`. -/
def setLen (v : Nat) (h : List Nat) : List Nat :=
  copyAt offLen (lenBytes v) h

/-- `Message.setTimestamp`: stores the millisecond value as eight big-endian
bytes at `offTS`. -/
def setTimestamp (ms : Nat) (h : List Nat) : List Nat :=
  copyAt offTS (tsBytes ms) h

/-- `Message.setID`: `copy(m.hdr[offID:offID+16], id[:])`. -/
def setID (id : List Nat) (h : List Nat) : List Nat :=
  copyAt offID id h

/-- `Message.SetToken`: `copy(m.hdr[offTok:offTok+16], tok[:])`. -/
def setToken (tok : List Nat) (h : List Nat) : List Nat :=
  copyAt offTok tok h

/-- `Message.Type`: returns `m.hdr[offType]`. -/
def typeOf (h : List Nat) : Nat :=
  (readAt offType 1 h).getD 0 0

/-- `Message.Len`: assembles the four bytes at `offLen` big-endian. -/
def lenOf (h : List Nat) : Nat :=
  beVal (readAt offLen 4 h)

/-- `Message.Timestamp`, at the level of the stored field: assembles the
eight bytes at `offTS` big-endian into the millisecond value (the Go
method further converts the milliseconds into a `time.Time`). -/
def tsOf (h : List Nat) : Nat :=
  beVal (readAt offTS 8 h)

/-- `Message.ID`: the sixteen bytes at `offID`. -/
def idOf (h : List Nat) : List Nat :=
  readAt offID 16 h

/-- `Message.Token`: the sixteen bytes at `offTok`. -/
def tokenOf (h : List Nat) : List Nat :=
  readAt offTok 16 h

/-- `writeFull`: loops `w.Write` until the whole buffer is written.  On the
deterministic sink model (a healthy stream accepts every byte) this appends
the buffer to the bytes written so far. -/
def writeFull (sink buf : List Nat) : List Nat :=
  sink ++ buf

/-- `Message.Write(pld)`: sets the header length field to `uint32(len(pld))`,
then writes the 53 header bytes followed by the payload.  Returns the byte
stream produced on the sink. -/
def msgWrite (h : List Nat) (pld : List Nat) : List Nat :=
  writeFull (writeFull [] (setLen pld.length h)) pld

/-- The read loop shared by `Rcv` (`for total := 0; total < hdrLen; ...`):
keeps issuing reads until `need` bytes have accumulated, returning them
together with the unconsumed remainder of the source, or `none` if a read
fails (the source is exhausted first, so `r.Read` returns EOF). -/
def readLoop (need : Nat) (acc : List Nat) (src : List Nat) : Option (List Nat × List Nat) :=
  if need = 0 then some (acc, src)
  else
    match src with
    | [] => none
    | x :: xs =>
      readLoop (need - min need (x :: xs).length) (acc ++ (x :: xs).take need)
        ((x :: xs).drop need)
termination_by need
decreasing_by
  have hlen : 0 < (x :: xs).length := by simp
  omega

/-- `msg.Rcv`: reads exactly 53 header bytes from the source, looping over
partial reads; fails if the source ends first.  Returns the header bytes and
the remaining source (held by the returned `Message` for payload reads). -/
def msgRcv (src : List Nat) : Option (List Nat × List Nat) :=
  readLoop hdrLen [] src

/-- The buffer-shrinking step at the top of each `Message.Read` iteration:
`if total+len(buf) > m.Len() { buf = buf[:m.Len()-total] }`.  Returns the
size of the buffer used for the next read. -/
def nextBuf (len bufsz total : Nat) : Nat :=
  if len < total + bufsz then len - total else bufsz

/-- The loop body of the `Message.Read` iterator.  `len` is `m.Len()`,
`bufsz` the current size of the (shrink-only) chunk buffer, `total` the
bytes delivered so far and `src` the remaining source.  Faithful to the
source: when the underlying read returns `io.EOF` the iterator returns
*silently*, yielding neither the error nor any further chunk; otherwise each
chunk read is yielded to the consumer (which here drains everything).  The
returned list is the sequence of yielded chunks. -/
def msgReadLoop (len bufsz total : Nat) (src : List Nat) (hb : 0 < bufsz) :
    List (List Nat) :=
  if h : len ≤ total then []
  else
    match src with
    | [] => []  -- n, err := m.r.Read(buf); err == io.EOF → return (silently)
    | x :: xs =>
      ((x :: xs).take (nextBuf len bufsz total)) ::
        msgReadLoop len (nextBuf len bufsz total)
          (total + ((x :: xs).take (nextBuf len bufsz total)).length)
          ((x :: xs).drop (nextBuf len bufsz total))
          (by unfold nextBuf; split <;> omega)
termination_by src.length
decreasing_by
  have hnb : 0 < nextBuf len bufsz total := by
    unfold nextBuf
    split <;> omega
  simp only [List.length_drop, List.length_cons]
  omega

/-- `Message.Read()` drained by a consumer that never stops early: the list
of payload chunks the iterator yields. -/
def msgRead (len : Nat) (src : List Nat) : List (List Nat) :=
  msgReadLoop len buflen 0 src (by decide)

/-- The zeroed header array a fresh `Message` value starts from. -/
def zeroHdr : List Nat := List.replicate 53 0

/-- `msg.New(w)`: a fresh message whose id is set to a (there: random,
here: arbitrary) 16-byte value and whose timestamp is set to the current
(here: arbitrary) millisecond value. -/
def newMsgHdr (id : List Nat) (ts : Nat) : List Nat :=
  setTimestamp ts (setID id zeroHdr)

end Msg

end Chat

namespace Chat.Handshake

/-- ASCII bytes of the payload `"ack"`. -/
def ackPld : List Nat := [97, 99, 107]

/-- ASCII bytes of the payload `"login"`. -/
def loginPld : List Nat := [108, 111, 103, 105, 110]

/-- ASCII bytes of the payload `"ok"`. -/
def okPld : List Nat := [111, 107]

/-- ASCII bytes of the payload `"no"`. -/
def noPld : List Nat := [110, 111]

/-- The environment of one client handshake (session.go): the cached token
file's bytes, the payload of the server's token message if a fresh token is
requested on attempt `i`, and the payload of the server's response to login
attempt `i`.  Transport reads and writes succeed (the claims concern the
protocol logic, not transport failure). -/
structure ClientEnv where
  cached : List Nat
  tokenResp : Nat → List Nat
  loginResp : Nat → List Nat

/-- How `Client.handshake` can end: `authenticated` carries the attempt that
received `"ok"` and the token used; `errInternal` is the `ErrInternal`
return after the retry budget is exhausted; `errInvalidToken` is the
`ErrInvalidToken` return from `Client.token` on a wrong-size token. -/
inductive ClientOutcome where
  | authenticated (attempt : Nat) (tok : List Nat)
  | errInternal (attempt : Nat)
  | errInvalidToken (attempt : Nat)
deriving DecidableEq

/-- `Client.token(stream, rep)` (session.go): reads the cached token file;
when the cached bytes are not 16 long or `rep` is set, it performs the
`"ack"` exchange for a fresh token, failing with `ErrInvalidToken` when the
received payload is not 16 bytes, and saves it.  Returns the token (or
`none` for the invalid-token error) and whether a fresh request was made. -/
def clientToken (env : ClientEnv) (attempt : Nat) (rep : Bool) :
    Option (List Nat) × Bool :=
  if env.cached.length ≠ 16 ∨ rep = true then
    if (env.tokenResp attempt).length ≠ 16 then (none, true)
    else (some (env.tokenResp attempt), true)
  else (some env.cached, false)

/-- The observable result of `Client.handshake`: its outcome, the number of
`"login"` frames sent, and the attempts on which a fresh token request
(`"ack"` exchange) was made. -/
structure ClientResult where
  outcome : ClientOutcome
  logins : Nat
  freshReqs : List Nat
deriving DecidableEq

/-- The retry loop of `Client.handshake` (session.go, `tok:` label):
`attempt, maxAttempts := 1, 3`; get a token with `rep = attempt > 1`; send
`"login"` with the token in the header; read the response; on a non-`"ok"`
response return `ErrInternal` when `attempt > maxAttempts`, otherwise
increment `attempt` and `goto tok`. -/
def clientLoop (env : ClientEnv) (attempt : Nat) : ClientResult :=
  match clientToken env attempt (decide (1 < attempt)) with
  | (none, _) => ⟨.errInvalidToken attempt, 0, [attempt]⟩
  | (some tk, fresh) =>
    if env.loginResp attempt = okPld then
      ⟨.authenticated attempt tk, 1, if fresh then [attempt] else []⟩
    else if hmax : 3 < attempt then
      ⟨.errInternal attempt, 1, if fresh then [attempt] else []⟩
    else
      let r := clientLoop env (attempt + 1)
      ⟨r.outcome, r.logins + 1, (if fresh then [attempt] else []) ++ r.freshReqs⟩
termination_by 4 - attempt
decreasing_by omega

/-- `Client.handshake` starts at attempt 1. -/
def clientHandshake (env : ClientEnv) : ClientResult :=
  clientLoop env 1

/-- One message as the server handshake sees it: the header token field
(`r.Token()`) and the payload (`r.ReadFull()`). -/
structure SMsg where
  token : List Nat
  payload : List Nat
deriving DecidableEq

/-- The action `Server.handshake` takes on one received message (the body of
the `rcv:` loop in session.go): either respond and keep listening on the
same stream (`reply`, with the repository and mint counter afterwards), or
respond `"ok"` and return the stream authenticated (`auth`). -/
inductive ServerStep where
  | reply (resp : List Nat) (repo : List (List Nat)) (minted : Nat)
  | auth (resp : List Nat) (tok : List Nat)
deriving DecidableEq

/-- The `switch string(pld)` of `Server.handshake`: on `"ack"` mint the next
random token (`mint k`), persist it (`SaveToken`, modelled as consing onto
the repository list) and send it; on `"login"` check the header token with
`HasToken` — if absent answer `"no"` and keep listening, if present answer
`"ok"` and return the stream; on any other payload answer `"no"` and keep
listening. -/
def serverStep (repo : List (List Nat)) (mint : Nat → List Nat) (k : Nat)
    (m : SMsg) : ServerStep :=
  if m.payload = ackPld then
    .reply (mint k) (mint k :: repo) (k + 1)
  else if m.payload = loginPld then
    if m.token ∈ repo then .auth okPld m.token
    else .reply noPld repo k
  else .reply noPld repo k

/-- How a finite run of the server handshake ends: `authenticated` when a
login was answered `"ok"` (the handshake returns the stream), `awaiting`
when the supplied messages ran out with the server still blocked in `Rcv`
waiting for the next message on the same stream. -/
inductive ServerOutcome where
  | authenticated (tok : List Nat)
  | awaiting
deriving DecidableEq

/-- The `rcv:` loop of `Server.handshake` run over a finite list of incoming
messages: returns the responses sent, in order, and how the run ended. -/
def serverRun (repo : List (List Nat)) (mint : Nat → List Nat) (k : Nat) :
    List SMsg → List (List Nat) × ServerOutcome
  | [] => ([], .awaiting)
  | m :: rest =>
    match serverStep repo mint k m with
    | .auth resp tok => ([resp], .authenticated tok)
    | .reply resp repo' k' =>
      ((serverRun repo' mint k' rest).1.cons resp, (serverRun repo' mint k' rest).2)

end Chat.Handshake

namespace Chat.Server

/-- `codes.StopServer` (codes/codes.go, `iota`): value 0. -/
def stopServer : Nat := 0

/-- `codes.ToManyConns`: value 1. -/
def toManyConns : Nat := 1

/-- `codes.Done`: value 2. -/
def doneCode : Nat := 2

/-- `Code.String()`.  Modelled from the source's
`go:generate enumer -linecomment -output=enum.go -text -type=Code` directive
in codes/codes.go (the generated enum.go is not part of the snapshot, but
`-linecomment` makes `String()` return each constant's line comment): the
line comments there are `stop server`, `to many connections` and `bye`. -/
def codeString : Nat → String
  | 0 => "stop server"
  | 1 => "to many connections"
  | 2 => "bye"
  | _ => ""

/-- `closeConn(conn, code)` (server.go):
`conn.CloseWithError(quic.ApplicationErrorCode(code), code.String())` — the
connection is closed carrying the numeric code and its string as the
application-level reason. -/
def closeConn (conn code : Nat) : Nat × Nat × String :=
  (conn, code, codeString code)

/-- The errors a `Server` operation can return: `ErrServerNotRunning`
(declared in server.go), a wrapped listener-close transport error, or a
wrapped connection-close transport error.  Transport errors are abstract
numbers supplied by the environment. -/
inductive SrvErr where
  | serverNotRunning
  | lnrClose (e : Nat)
  | connClose (conn e : Nat)
deriving DecidableEq

/-- The state of a `Server` (server.go): whether `Run` has installed the
cancel function and the listener (both are nil on a zero-initialized
`Server`), whether the manager context has been cancelled, whether the
listener has been closed, the `sessionsWG` counter, the tracked-connection
set `s.conns` (a map, modelled as a list iterated in order), and the
connections whose handling goroutine is still running. -/
structure SrvState where
  cancelSet : Bool
  lnrSet : Bool
  cancelled : Bool
  lnrClosed : Bool
  wgCount : Nat
  tracked : List Nat
  inflight : List Nat
deriving DecidableEq

/-- `NewServer(opts...)`: a fresh server with an empty connection map; its
`ctx`, `cancel` and `lnr` fields remain nil until `Run` sets them. -/
def newServer : SrvState := ⟨false, false, false, false, 0, [], []⟩

/-- `Run` after a successful `quic.ListenAddr`: sets the listener and the
cancellable context under the lock, then serves. -/
def runStart (st : SrvState) : SrvState :=
  { st with cancelSet := true, lnrSet := true }

/-- The environment of a shutdown: the error, if any, from closing the
listener and from closing each connection. -/
structure SrvEnv where
  lnrCloseErr : Option Nat
  connCloseErr : Nat → Option Nat

/-- What the accept loop of `serve` (server.go) does for each accepted
connection: adds it to `s.conns` under the lock, `s.sessionsWG.Add(1)`, and
spawns the handling goroutine. -/
def acceptConn (c : Nat) (st : SrvState) : SrvState :=
  { st with
    tracked := st.tracked ++ [c]
    wgCount := st.wgCount + 1
    inflight := st.inflight ++ [c] }

/-- The deferred cleanup the per-connection goroutine of `serve` runs when
the handling task finishes: `closeConn(c, codes.Done)` and
`delete(s.conns, c)` under the lock.  Faithful to the source: the goroutine
contains no `s.sessionsWG.Done()` call, so the `sessionsWG` counter is not
decremented here (or anywhere). -/
def finishTask (c : Nat) (st : SrvState) : SrvState :=
  { st with
    tracked := st.tracked.erase c
    inflight := st.inflight.erase c }

/-- `errors.Join`: drops nil errors and keeps every non-nil error, in
order (an empty result is the nil error). -/
def joinErrs (es : List (Option SrvErr)) : List SrvErr :=
  es.filterMap id

/-- The result of `Stop`/`Shutdown`: whether the call panicked (dereference
of a nil `cancel`/`lnr`), the state afterwards, the connections closed by
the call `(conn, code, reason)`, the joined errors returned, and — for
`Shutdown` — whether the wait finished via the `done` channel before the
deadline context fired. -/
structure StopRes where
  panicked : Bool
  state : SrvState
  closed : List (Nat × Nat × String)
  errs : List SrvErr
  beforeDeadline : Bool
deriving DecidableEq

/-- `Server.Stop` (server.go): `s.cancel()` (a nil function on a server
whose `Run` has not set it — panics), `s.lnr.Close()` (nil listener —
panics), snapshot and clear `s.conns` under the lock, then close every
snapshotted connection with `codes.StopServer`, returning
`errors.Join(cerr, conn close errors...)`.  It neither touches `sessionsWG`
nor waits on anything; `beforeDeadline` is true as it returns at once. -/
def serverStop (env : SrvEnv) (st : SrvState) : StopRes :=
  if ¬ st.cancelSet then ⟨true, st, [], [], true⟩
  else if ¬ st.lnrSet then ⟨true, st, [], [], true⟩
  else
    ⟨false,
     { st with cancelled := true, lnrClosed := true, tracked := [] },
     st.tracked.map (fun c => closeConn c stopServer),
     joinErrs ((env.lnrCloseErr).map SrvErr.lnrClose ::
       st.tracked.map (fun c => (env.connCloseErr c).map (SrvErr.connClose c))),
     true⟩

/-- `Server.Shutdown(ctx)` (server.go): `s.cancel()` and `s.lnr.Close()`
(panicking on a nil field like `Stop`); then waits on
`select { <-done | <-ctx.Done() }` where `done` closes when
`s.sessionsWG.Wait()` returns — which happens exactly when the counter is
zero, since `serve` increments it per accepted connection and no code path
ever calls `Done()`; finally snapshots and clears `s.conns` and closes the
remainder with `codes.StopServer`, returning the joined errors. -/
def serverShutdown (env : SrvEnv) (st : SrvState) : StopRes :=
  if ¬ st.cancelSet then ⟨true, st, [], [], false⟩
  else if ¬ st.lnrSet then ⟨true, st, [], [], false⟩
  else
    ⟨false,
     { st with cancelled := true, lnrClosed := true, tracked := [] },
     st.tracked.map (fun c => closeConn c stopServer),
     joinErrs ((env.lnrCloseErr).map SrvErr.lnrClose ::
       st.tracked.map (fun c => (env.connCloseErr c).map (SrvErr.connClose c))),
     st.wgCount == 0⟩

end Chat.Server

namespace Chat.Msg

theorem copyAt_length (off : Nat) (src dst : List Nat)
    (h : off + src.length ≤ dst.length) :
    (copyAt off src dst).length = dst.length := by
  simp only [copyAt, List.length_append, List.length_take, List.length_drop]
  omega

theorem readAt_copyAt_self (off : Nat) (src dst : List Nat)
    (h : off + src.length ≤ dst.length) :
    readAt off src.length (copyAt off src dst) = src := by
  unfold readAt copyAt
  rw [List.append_assoc, List.drop_append_eq_append_drop]
  have h1 : (dst.take off).drop off = [] := by
    simp [List.drop_take]
  have h2 : off - (dst.take off).length = 0 := by
    simp only [List.length_take]
    omega
  rw [h1, h2, List.nil_append, List.drop_zero, List.take_left]

theorem readAt_copyAt_disjoint (o k o' : Nat) (src dst : List Nat)
    (ho : o' + src.length ≤ dst.length)
    (hd : o + k ≤ o' ∨ o' + src.length ≤ o) :
    readAt o k (copyAt o' src dst) = readAt o k dst := by
  unfold readAt copyAt
  have hAlen : (dst.take o').length = o' := by
    simp only [List.length_take]
    omega
  rw [List.append_assoc, List.drop_append_eq_append_drop, hAlen]
  rcases hd with hd | hd
  · -- the bytes read lie strictly before the written range
    have ho' : o - o' = 0 := by omega
    rw [ho', List.drop_zero, List.take_append_eq_append_take]
    have hdlen : ((dst.take o').drop o).length = o' - o := by
      simp only [List.length_drop, List.length_take]
      omega
    have hk0 : k - ((dst.take o').drop o).length = 0 := by omega
    rw [hk0, List.take_zero, List.append_nil, List.drop_take]
    rw [List.take_take]
    have : min k (o' - o) = k := by omega
    rw [this]
  · -- the bytes read lie entirely after the written range
    have h1 : (dst.take o').drop o = [] := by
      apply List.drop_eq_nil_of_le
      simp only [List.length_take]
      omega
    rw [h1, List.nil_append, List.drop_append_eq_append_drop]
    have h2 : (o - o') - src.length = o - (o' + src.length) := by omega
    have h3 : src.drop (o - o') = [] := by
      apply List.drop_eq_nil_of_le
      omega
    rw [h2, h3, List.nil_append, List.drop_drop]
    have h4 : o' + src.length + (o - (o' + src.length)) = o := by omega
    rw [h4]

theorem beVal_lenBytes (v : Nat) (h : v < 2 ^ 32) : beVal (lenBytes v) = v := by
  simp only [beVal, lenBytes, List.foldl]
  omega

theorem beVal_tsBytes (v : Nat) (h : v < 2 ^ 64) : beVal (tsBytes v) = v := by
  simp only [beVal, tsBytes, List.foldl]
  omega

end Chat.Msg

namespace Chat.Msg

/-- The deterministic source delivers the longest available prefix on each
read, so the `Rcv`-style read loop succeeds exactly when the source still
holds `need` bytes, consuming them. -/
theorem readLoop_eq (need : Nat) (acc src : List Nat) :
    readLoop need acc src =
      if need ≤ src.length then some (acc ++ src.take need, src.drop need)
      else none := by
  unfold readLoop
  by_cases h0 : need = 0
  · subst h0
    simp
  · cases src with
    | nil =>
      have h1 : ¬ need ≤ ([] : List Nat).length := by
        simp only [List.length_nil]
        omega
      rw [if_neg h0, if_neg h1]
    | cons x xs =>
      rw [if_neg h0]
      show readLoop (need - min need (x :: xs).length) (acc ++ (x :: xs).take need)
          ((x :: xs).drop need) =
        if need ≤ (x :: xs).length then
          some (acc ++ (x :: xs).take need, (x :: xs).drop need)
        else none
      by_cases hle : need ≤ (x :: xs).length
      · have hmin : min need (x :: xs).length = need := by omega
        rw [hmin, Nat.sub_self]
        unfold readLoop
        rw [if_pos rfl, if_pos hle]
      · have hmin : min need (x :: xs).length = (x :: xs).length := by omega
        have hdrop : (x :: xs).drop need = [] :=
          List.drop_eq_nil_of_le (by omega)
        have hne : ¬ (need - (x :: xs).length = 0) := by
          simp only [List.length_cons] at hle ⊢
          omega
        rw [hmin, hdrop]
        unfold readLoop
        rw [if_neg hne, if_neg hle]

theorem msgRcv_eq (src : List Nat) :
    msgRcv src =
      if 53 ≤ src.length then some (src.take 53, src.drop 53) else none := by
  rw [msgRcv, readLoop_eq, hdrLen]
  simp

theorem nextBuf_pos {len bufsz total : Nat} (h : ¬ len ≤ total) (hb : 0 < bufsz) :
    0 < nextBuf len bufsz total := by
  unfold nextBuf
  split <;> omega

theorem nextBuf_le {len bufsz total : Nat} (h : ¬ len ≤ total) :
    nextBuf len bufsz total ≤ len - total := by
  unfold nextBuf
  split <;> omega

/-- When the source still holds the declared number of payload bytes, the
drained chunks of the `Message.Read` iterator concatenate to exactly those
bytes. -/
theorem msgReadLoop_flatten (len bufsz total : Nat) (src : List Nat) (hb : 0 < bufsz) :
    len - total ≤ src.length →
    (msgReadLoop len bufsz total src hb).flatten = src.take (len - total) := by
  refine msgReadLoop.induct len
    (motive := fun bufsz total src hb =>
      len - total ≤ src.length →
      (msgReadLoop len bufsz total src hb).flatten = src.take (len - total))
    ?_ ?_ ?_ bufsz total src hb
  · intro bufsz total src hb hle _
    unfold msgReadLoop
    rw [dif_pos hle]
    simp [Nat.sub_eq_zero_of_le hle]
  · intro bufsz total hb hlt hle
    simp only [List.length_nil, Nat.le_zero] at hle
    omega
  · intro bufsz total hb hlt x xs ih hle
    unfold msgReadLoop
    rw [dif_neg hlt]
    simp only [List.flatten_cons]
    have hbpos : 0 < nextBuf len bufsz total := nextBuf_pos hlt hb
    have hble : nextBuf len bufsz total ≤ len - total := nextBuf_le hlt
    have htake : ((x :: xs).take (nextBuf len bufsz total)).length
        = nextBuf len bufsz total := by
      simp only [List.length_take, List.length_cons]
      simp only [List.length_cons] at hle
      omega
    rw [htake] at ih ⊢
    rw [ih (by simp only [List.length_drop, List.length_cons] at hle ⊢; omega)]
    have harith : len - total
        = nextBuf len bufsz total + (len - (total + nextBuf len bufsz total)) := by
      omega
    rw [harith, List.take_add]

/-- `Message.Read` on a source holding exactly `len` or more bytes delivers
exactly the first `len` bytes. -/
theorem msgRead_flatten (len : Nat) (src : List Nat) (h : len ≤ src.length) :
    (msgRead len src).flatten = src.take len := by
  have := msgReadLoop_flatten len buflen 0 src (by decide)
    (by simpa using h)
  simpa using this

end Chat.Msg

namespace Chat.Msg

theorem lenBytes_length (v : Nat) : (lenBytes v).length = 4 := rfl

theorem tsBytes_length (v : Nat) : (tsBytes v).length = 8 := rfl

theorem setType_length (t : Nat) (h : List Nat) (hl : h.length = 53) :
    (setType t h).length = 53 := by
  unfold setType
  rw [copyAt_length _ _ _ (by simp [hl, offType])]
  exact hl

theorem setLen_length (v : Nat) (h : List Nat) (hl : h.length = 53) :
    (setLen v h).length = 53 := by
  unfold setLen
  rw [copyAt_length _ _ _ (by simp [hl, lenBytes_length, offLen])]
  exact hl

theorem setTimestamp_length (ms : Nat) (h : List Nat) (hl : h.length = 53) :
    (setTimestamp ms h).length = 53 := by
  unfold setTimestamp
  rw [copyAt_length _ _ _ (by simp [hl, tsBytes_length, offTS])]
  exact hl

theorem setID_length (id : List Nat) (h : List Nat) (hl : h.length = 53)
    (hid : id.length = 16) : (setID id h).length = 53 := by
  unfold setID
  rw [copyAt_length _ _ _ (by simp [hl, hid, offID])]
  exact hl

theorem setToken_length (tok : List Nat) (h : List Nat) (hl : h.length = 53)
    (htok : tok.length = 16) : (setToken tok h).length = 53 := by
  unfold setToken
  rw [copyAt_length _ _ _ (by simp [hl, htok, offTok])]
  exact hl

theorem readAt_setType (t : Nat) (h : List Nat) (hl : h.length = 53) :
    readAt 0 1 (setType t h) = [t % 256] := by
  have h1 := readAt_copyAt_self 0 [t % 256] h (by simp [hl])
  simpa [setType, offType] using h1

theorem readAt_setLen (v : Nat) (h : List Nat) (hl : h.length = 53) :
    readAt 1 4 (setLen v h) = lenBytes v := by
  have h1 := readAt_copyAt_self 1 (lenBytes v) h (by simp [hl, lenBytes_length])
  simpa [setLen, offLen, lenBytes_length] using h1

theorem readAt_setTimestamp (ms : Nat) (h : List Nat) (hl : h.length = 53) :
    readAt 5 8 (setTimestamp ms h) = tsBytes ms := by
  have h1 := readAt_copyAt_self 5 (tsBytes ms) h (by simp [hl, tsBytes_length])
  simpa [setTimestamp, offTS, tsBytes_length] using h1

theorem readAt_setID (id : List Nat) (h : List Nat) (hl : h.length = 53)
    (hid : id.length = 16) : readAt 21 16 (setID id h) = id := by
  have h1 := readAt_copyAt_self 21 id h (by simp [hl, hid])
  rw [hid] at h1
  simpa [setID, offID] using h1

theorem readAt_setToken (tok : List Nat) (h : List Nat) (hl : h.length = 53)
    (htok : tok.length = 16) : readAt 37 16 (setToken tok h) = tok := by
  have h1 := readAt_copyAt_self 37 tok h (by simp [hl, htok])
  rw [htok] at h1
  simpa [setToken, offTok] using h1

theorem typeOf_setType (t : Nat) (h : List Nat) (hl : h.length = 53) :
    typeOf (setType t h) = t % 256 := by
  unfold typeOf offType
  rw [readAt_setType t h hl]
  rfl

theorem lenOf_setLen (v : Nat) (h : List Nat) (hl : h.length = 53)
    (hv : v < 2 ^ 32) : lenOf (setLen v h) = v := by
  unfold lenOf offLen
  rw [readAt_setLen v h hl, beVal_lenBytes v hv]

theorem tsOf_setTimestamp (ms : Nat) (h : List Nat) (hl : h.length = 53)
    (hms : ms < 2 ^ 64) : tsOf (setTimestamp ms h) = ms := by
  unfold tsOf offTS
  rw [readAt_setTimestamp ms h hl, beVal_tsBytes ms hms]

theorem idOf_setID (id : List Nat) (h : List Nat) (hl : h.length = 53)
    (hid : id.length = 16) : idOf (setID id h) = id := by
  unfold idOf offID
  exact readAt_setID id h hl hid

theorem tokenOf_setToken (tok : List Nat) (h : List Nat) (hl : h.length = 53)
    (htok : tok.length = 16) : tokenOf (setToken tok h) = tok := by
  unfold tokenOf offTok
  exact readAt_setToken tok h hl htok

end Chat.Msg

namespace Chat.Msg

theorem typeOf_setLen (v : Nat) (h : List Nat) (hl : h.length = 53) :
    typeOf (setLen v h) = typeOf h := by
  unfold typeOf setLen offType offLen
  rw [readAt_copyAt_disjoint 0 1 1 (lenBytes v) h
    (by simp [hl, lenBytes_length]) (Or.inl (by omega))]

theorem typeOf_setTimestamp (ms : Nat) (h : List Nat) (hl : h.length = 53) :
    typeOf (setTimestamp ms h) = typeOf h := by
  unfold typeOf setTimestamp offType offTS
  rw [readAt_copyAt_disjoint 0 1 5 (tsBytes ms) h
    (by simp [hl, tsBytes_length]) (Or.inl (by omega))]

theorem typeOf_setID (id : List Nat) (h : List Nat) (hl : h.length = 53)
    (hid : id.length = 16) : typeOf (setID id h) = typeOf h := by
  unfold typeOf setID offType offID
  rw [readAt_copyAt_disjoint 0 1 21 id h
    (by simp [hl, hid]) (Or.inl (by omega))]

theorem typeOf_setToken (tok : List Nat) (h : List Nat) (hl : h.length = 53)
    (htok : tok.length = 16) : typeOf (setToken tok h) = typeOf h := by
  unfold typeOf setToken offType offTok
  rw [readAt_copyAt_disjoint 0 1 37 tok h
    (by simp [hl, htok]) (Or.inl (by omega))]

theorem lenOf_setType (t : Nat) (h : List Nat) (hl : h.length = 53) :
    lenOf (setType t h) = lenOf h := by
  unfold lenOf setType offLen offType
  rw [readAt_copyAt_disjoint 1 4 0 [t % 256] h
    (by simp [hl]) (Or.inr (by simp))]

theorem lenOf_setTimestamp (ms : Nat) (h : List Nat) (hl : h.length = 53) :
    lenOf (setTimestamp ms h) = lenOf h := by
  unfold lenOf setTimestamp offLen offTS
  rw [readAt_copyAt_disjoint 1 4 5 (tsBytes ms) h
    (by simp [hl, tsBytes_length]) (Or.inl (by omega))]

theorem lenOf_setID (id : List Nat) (h : List Nat) (hl : h.length = 53)
    (hid : id.length = 16) : lenOf (setID id h) = lenOf h := by
  unfold lenOf setID offLen offID
  rw [readAt_copyAt_disjoint 1 4 21 id h
    (by simp [hl, hid]) (Or.inl (by omega))]

theorem lenOf_setToken (tok : List Nat) (h : List Nat) (hl : h.length = 53)
    (htok : tok.length = 16) : lenOf (setToken tok h) = lenOf h := by
  unfold lenOf setToken offLen offTok
  rw [readAt_copyAt_disjoint 1 4 37 tok h
    (by simp [hl, htok]) (Or.inl (by omega))]

theorem tsOf_setType (t : Nat) (h : List Nat) (hl : h.length = 53) :
    tsOf (setType t h) = tsOf h := by
  unfold tsOf setType offTS offType
  rw [readAt_copyAt_disjoint 5 8 0 [t % 256] h
    (by simp [hl]) (Or.inr (by simp))]

theorem tsOf_setLen (v : Nat) (h : List Nat) (hl : h.length = 53) :
    tsOf (setLen v h) = tsOf h := by
  unfold tsOf setLen offTS offLen
  rw [readAt_copyAt_disjoint 5 8 1 (lenBytes v) h
    (by simp [hl, lenBytes_length]) (Or.inr (by simp [lenBytes_length]))]

theorem tsOf_setID (id : List Nat) (h : List Nat) (hl : h.length = 53)
    (hid : id.length = 16) : tsOf (setID id h) = tsOf h := by
  unfold tsOf setID offTS offID
  rw [readAt_copyAt_disjoint 5 8 21 id h
    (by simp [hl, hid]) (Or.inl (by omega))]

theorem tsOf_setToken (tok : List Nat) (h : List Nat) (hl : h.length = 53)
    (htok : tok.length = 16) : tsOf (setToken tok h) = tsOf h := by
  unfold tsOf setToken offTS offTok
  rw [readAt_copyAt_disjoint 5 8 37 tok h
    (by simp [hl, htok]) (Or.inl (by omega))]

theorem idOf_setType (t : Nat) (h : List Nat) (hl : h.length = 53) :
    idOf (setType t h) = idOf h := by
  unfold idOf setType offID offType
  rw [readAt_copyAt_disjoint 21 16 0 [t % 256] h
    (by simp [hl]) (Or.inr (by simp))]

theorem idOf_setLen (v : Nat) (h : List Nat) (hl : h.length = 53) :
    idOf (setLen v h) = idOf h := by
  unfold idOf setLen offID offLen
  rw [readAt_copyAt_disjoint 21 16 1 (lenBytes v) h
    (by simp [hl, lenBytes_length]) (Or.inr (by simp [lenBytes_length]))]

theorem idOf_setTimestamp (ms : Nat) (h : List Nat) (hl : h.length = 53) :
    idOf (setTimestamp ms h) = idOf h := by
  unfold idOf setTimestamp offID offTS
  rw [readAt_copyAt_disjoint 21 16 5 (tsBytes ms) h
    (by simp [hl, tsBytes_length]) (Or.inr (by simp [tsBytes_length]))]

theorem idOf_setToken (tok : List Nat) (h : List Nat) (hl : h.length = 53)
    (htok : tok.length = 16) : idOf (setToken tok h) = idOf h := by
  unfold idOf setToken offID offTok
  rw [readAt_copyAt_disjoint 21 16 37 tok h
    (by simp [hl, htok]) (Or.inl (by omega))]

theorem tokenOf_setType (t : Nat) (h : List Nat) (hl : h.length = 53) :
    tokenOf (setType t h) = tokenOf h := by
  unfold tokenOf setType offTok offType
  rw [readAt_copyAt_disjoint 37 16 0 [t % 256] h
    (by simp [hl]) (Or.inr (by simp))]

theorem tokenOf_setLen (v : Nat) (h : List Nat) (hl : h.length = 53) :
    tokenOf (setLen v h) = tokenOf h := by
  unfold tokenOf setLen offTok offLen
  rw [readAt_copyAt_disjoint 37 16 1 (lenBytes v) h
    (by simp [hl, lenBytes_length]) (Or.inr (by simp [lenBytes_length]))]

theorem tokenOf_setTimestamp (ms : Nat) (h : List Nat) (hl : h.length = 53) :
    tokenOf (setTimestamp ms h) = tokenOf h := by
  unfold tokenOf setTimestamp offTok offTS
  rw [readAt_copyAt_disjoint 37 16 5 (tsBytes ms) h
    (by simp [hl, tsBytes_length]) (Or.inr (by simp [tsBytes_length]))]

theorem tokenOf_setID (id : List Nat) (h : List Nat) (hl : h.length = 53)
    (hid : id.length = 16) : tokenOf (setID id h) = tokenOf h := by
  unfold tokenOf setID offTok offID
  rw [readAt_copyAt_disjoint 37 16 21 id h
    (by simp [hl, hid]) (Or.inr (by simp [hid]))]

end Chat.Msg

namespace Chat.Msg

/-- **C1**: for every header field assignment (type, timestamp, id, token)
and every payload, encoding the message (`Message.Write`: 53 header bytes
then the payload) and then decoding it (`msg.Rcv` for the header, then
draining the `Message.Read` payload chunks) reproduces the original header
fields and the original payload bytes exactly. -/
theorem claim_C1_frame_round_trip (t ts : Nat) (id tok pld : List Nat)
    (ht : t < 256) (hts : ts < 2 ^ 64) (hid : id.length = 16)
    (htok : tok.length = 16) (hpld : pld.length < 2 ^ 32) :
    msgRcv (msgWrite (setToken tok (setType t (newMsgHdr id ts))) pld)
      = some (setLen pld.length (setToken tok (setType t (newMsgHdr id ts))), pld) ∧
    typeOf (setLen pld.length (setToken tok (setType t (newMsgHdr id ts)))) = t ∧
    tsOf (setLen pld.length (setToken tok (setType t (newMsgHdr id ts)))) = ts ∧
    idOf (setLen pld.length (setToken tok (setType t (newMsgHdr id ts)))) = id ∧
    tokenOf (setLen pld.length (setToken tok (setType t (newMsgHdr id ts)))) = tok ∧
    lenOf (setLen pld.length (setToken tok (setType t (newMsgHdr id ts)))) = pld.length ∧
    (msgRead (lenOf (setLen pld.length (setToken tok (setType t (newMsgHdr id ts)))))
      pld).flatten = pld := by
  have hz : (zeroHdr : List Nat).length = 53 := by simp [zeroHdr]
  have h1 : (setID id zeroHdr).length = 53 := setID_length id zeroHdr hz hid
  have h2 : (newMsgHdr id ts).length = 53 := by
    unfold newMsgHdr
    exact setTimestamp_length ts _ h1
  have h3 : (setType t (newMsgHdr id ts)).length = 53 := setType_length t _ h2
  have h4 : (setToken tok (setType t (newMsgHdr id ts))).length = 53 :=
    setToken_length tok _ h3 htok
  have h5 : (setLen pld.length (setToken tok (setType t (newMsgHdr id ts)))).length = 53 :=
    setLen_length _ _ h4
  have hlen : lenOf (setLen pld.length (setToken tok (setType t (newMsgHdr id ts))))
      = pld.length :=
    lenOf_setLen _ _ h4 hpld
  refine ⟨?_, ?_, ?_, ?_, ?_, hlen, ?_⟩
  · have hw : msgWrite (setToken tok (setType t (newMsgHdr id ts))) pld
        = setLen pld.length (setToken tok (setType t (newMsgHdr id ts))) ++ pld := by
      simp [msgWrite, writeFull]
    rw [hw, msgRcv_eq]
    rw [if_pos (by simp only [List.length_append, h5]; omega)]
    rw [List.take_left' h5, List.drop_left' h5]
  · rw [typeOf_setLen _ _ h4, typeOf_setToken _ _ h3 htok, typeOf_setType _ _ h2]
    exact Nat.mod_eq_of_lt ht
  · rw [tsOf_setLen _ _ h4, tsOf_setToken _ _ h3 htok, tsOf_setType _ _ h2]
    unfold newMsgHdr
    exact tsOf_setTimestamp ts _ h1 hts
  · rw [idOf_setLen _ _ h4, idOf_setToken _ _ h3 htok, idOf_setType _ _ h2]
    unfold newMsgHdr
    rw [idOf_setTimestamp ts _ h1]
    exact idOf_setID id zeroHdr hz hid
  · rw [tokenOf_setLen _ _ h4]
    exact tokenOf_setToken tok _ h3 htok
  · rw [hlen, msgRead_flatten pld.length pld (le_refl _)]
    exact List.take_length pld

end Chat.Msg

namespace Chat.Msg

/-- **C1 witness**: the round trip evaluated at a concrete message — type 1,
timestamp 7 ms, id `2…2`, token `3…3`, payload `[9, 8, 7]`. -/
theorem claim_C1_witness :
    msgRcv (msgWrite (setToken (List.replicate 16 3)
        (setType 1 (newMsgHdr (List.replicate 16 2) 7))) [9, 8, 7])
      = some (setLen 3 (setToken (List.replicate 16 3)
          (setType 1 (newMsgHdr (List.replicate 16 2) 7))), [9, 8, 7]) ∧
    typeOf (setLen 3 (setToken (List.replicate 16 3)
      (setType 1 (newMsgHdr (List.replicate 16 2) 7)))) = 1 ∧
    tsOf (setLen 3 (setToken (List.replicate 16 3)
      (setType 1 (newMsgHdr (List.replicate 16 2) 7)))) = 7 ∧
    idOf (setLen 3 (setToken (List.replicate 16 3)
      (setType 1 (newMsgHdr (List.replicate 16 2) 7)))) = List.replicate 16 2 ∧
    tokenOf (setLen 3 (setToken (List.replicate 16 3)
      (setType 1 (newMsgHdr (List.replicate 16 2) 7)))) = List.replicate 16 3 ∧
    lenOf (setLen 3 (setToken (List.replicate 16 3)
      (setType 1 (newMsgHdr (List.replicate 16 2) 7)))) = 3 ∧
    (msgRead (lenOf (setLen 3 (setToken (List.replicate 16 3)
      (setType 1 (newMsgHdr (List.replicate 16 2) 7))))) [9, 8, 7]).flatten = [9, 8, 7] :=
  claim_C1_frame_round_trip 1 7 (List.replicate 16 2) (List.replicate 16 3) [9, 8, 7]
    (by decide) (by decide) (by decide) (by decide) (by decide)

/-- **C4**: decoding a source that ends early.  First conjunct (the claim's
header half, which holds): a 52-byte source is too short for the 53-byte
header and `msg.Rcv` returns the read error.  Second conjunct (where the
code contradicts the claim): a frame declaring 5 payload bytes over a source
holding only 3 makes the `Message.Read` iterator yield the 3-byte chunk with
a nil error and then end silently — no short-frame/EOF error ever reaches
the consumer. -/
theorem claim_C4_short_frame_behavior :
    msgRcv (List.replicate 52 0) = none ∧ msgRead 5 [1, 2, 3] = [[1, 2, 3]] := by
  constructor
  · rw [msgRcv_eq]
    norm_num
  · unfold msgRead buflen
    unfold msgReadLoop
    norm_num [nextBuf]
    unfold msgReadLoop
    norm_num

/-- **C5**: after `Message.Write`, the length field of the 53 header bytes
put on the wire equals the number of payload bytes actually written for the
frame. -/
theorem claim_C5_length_field (h pld : List Nat) (hl : h.length = 53)
    (hpld : pld.length < 2 ^ 32) :
    lenOf ((msgWrite h pld).take 53) = pld.length ∧
    (msgWrite h pld).drop 53 = pld := by
  have h5 : (setLen pld.length h).length = 53 := setLen_length _ _ hl
  have hw : msgWrite h pld = setLen pld.length h ++ pld := by
    simp [msgWrite, writeFull]
  constructor
  · rw [hw, List.take_left' h5]
    exact lenOf_setLen _ _ hl hpld
  · rw [hw, List.drop_left' h5]

/-- **C5 witness**: the length field at a concrete frame with a 5-byte
payload. -/
theorem claim_C5_witness :
    lenOf ((msgWrite (List.replicate 53 7) [1, 2, 3, 4, 5]).take 53) = 5 ∧
    (msgWrite (List.replicate 53 7) [1, 2, 3, 4, 5]).drop 53 = [1, 2, 3, 4, 5] :=
  claim_C5_length_field (List.replicate 53 7) [1, 2, 3, 4, 5] (by decide) (by decide)

/-- **C8**: the wire header is exactly 53 bytes with type at offset 0
(1 byte), length at 1 (4 bytes big-endian), timestamp at 5 (8 bytes
big-endian), id at 21 (16 bytes) and token at 37 (16 bytes); every setter
writes exactly its own bytes (after `SetLen(n)` bytes 1..4 hold `n`
big-endian and `Len` returns `n`) and leaves every other field's bytes
unchanged. -/
theorem claim_C8_header_layout (t v ms : Nat) (id tok h : List Nat)
    (hl : h.length = 53) (ht : t < 256) (hv : v < 2 ^ 32) (hms : ms < 2 ^ 64)
    (hid : id.length = 16) (htok : tok.length = 16) :
    hdrLen = 53 ∧ offType = 0 ∧ offLen = 1 ∧ offTS = 5 ∧ offID = 21 ∧ offTok = 37 ∧
    (setType t h).length = 53 ∧ typeOf (setType t h) = t ∧
    lenOf (setType t h) = lenOf h ∧ tsOf (setType t h) = tsOf h ∧
    idOf (setType t h) = idOf h ∧ tokenOf (setType t h) = tokenOf h ∧
    (setLen v h).length = 53 ∧ readAt 1 4 (setLen v h) = lenBytes v ∧
    lenOf (setLen v h) = v ∧ typeOf (setLen v h) = typeOf h ∧
    tsOf (setLen v h) = tsOf h ∧ idOf (setLen v h) = idOf h ∧
    tokenOf (setLen v h) = tokenOf h ∧
    (setTimestamp ms h).length = 53 ∧ tsOf (setTimestamp ms h) = ms ∧
    typeOf (setTimestamp ms h) = typeOf h ∧ lenOf (setTimestamp ms h) = lenOf h ∧
    idOf (setTimestamp ms h) = idOf h ∧ tokenOf (setTimestamp ms h) = tokenOf h ∧
    (setID id h).length = 53 ∧ idOf (setID id h) = id ∧
    typeOf (setID id h) = typeOf h ∧ lenOf (setID id h) = lenOf h ∧
    tsOf (setID id h) = tsOf h ∧ tokenOf (setID id h) = tokenOf h ∧
    (setToken tok h).length = 53 ∧ tokenOf (setToken tok h) = tok ∧
    typeOf (setToken tok h) = typeOf h ∧ lenOf (setToken tok h) = lenOf h ∧
    tsOf (setToken tok h) = tsOf h ∧ idOf (setToken tok h) = idOf h :=
  ⟨rfl, rfl, rfl, rfl, rfl, rfl,
   setType_length t h hl,
   (by rw [typeOf_setType t h hl]; exact Nat.mod_eq_of_lt ht),
   lenOf_setType t h hl, tsOf_setType t h hl, idOf_setType t h hl,
   tokenOf_setType t h hl,
   setLen_length v h hl, readAt_setLen v h hl, lenOf_setLen v h hl hv,
   typeOf_setLen v h hl, tsOf_setLen v h hl, idOf_setLen v h hl,
   tokenOf_setLen v h hl,
   setTimestamp_length ms h hl, tsOf_setTimestamp ms h hl hms,
   typeOf_setTimestamp ms h hl, lenOf_setTimestamp ms h hl,
   idOf_setTimestamp ms h hl, tokenOf_setTimestamp ms h hl,
   setID_length id h hl hid, idOf_setID id h hl hid, typeOf_setID id h hl hid,
   lenOf_setID id h hl hid, tsOf_setID id h hl hid, tokenOf_setID id h hl hid,
   setToken_length tok h hl htok, tokenOf_setToken tok h hl htok,
   typeOf_setToken tok h hl htok, lenOf_setToken tok h hl htok,
   tsOf_setToken tok h hl htok, idOf_setToken tok h hl htok⟩

/-- **C8 witness**: the layout conjunction evaluated at a concrete header
(all bytes 9) with type 1, length 300, timestamp 1000, id `4…4`, token
`5…5`. -/
theorem claim_C8_witness :
    hdrLen = 53 ∧ offType = 0 ∧ offLen = 1 ∧ offTS = 5 ∧ offID = 21 ∧ offTok = 37 ∧
    (setType 1 (List.replicate 53 9)).length = 53 ∧
    typeOf (setType 1 (List.replicate 53 9)) = 1 ∧
    lenOf (setType 1 (List.replicate 53 9)) = lenOf (List.replicate 53 9) ∧
    tsOf (setType 1 (List.replicate 53 9)) = tsOf (List.replicate 53 9) ∧
    idOf (setType 1 (List.replicate 53 9)) = idOf (List.replicate 53 9) ∧
    tokenOf (setType 1 (List.replicate 53 9)) = tokenOf (List.replicate 53 9) ∧
    (setLen 300 (List.replicate 53 9)).length = 53 ∧
    readAt 1 4 (setLen 300 (List.replicate 53 9)) = lenBytes 300 ∧
    lenOf (setLen 300 (List.replicate 53 9)) = 300 ∧
    typeOf (setLen 300 (List.replicate 53 9)) = typeOf (List.replicate 53 9) ∧
    tsOf (setLen 300 (List.replicate 53 9)) = tsOf (List.replicate 53 9) ∧
    idOf (setLen 300 (List.replicate 53 9)) = idOf (List.replicate 53 9) ∧
    tokenOf (setLen 300 (List.replicate 53 9)) = tokenOf (List.replicate 53 9) ∧
    (setTimestamp 1000 (List.replicate 53 9)).length = 53 ∧
    tsOf (setTimestamp 1000 (List.replicate 53 9)) = 1000 ∧
    typeOf (setTimestamp 1000 (List.replicate 53 9)) = typeOf (List.replicate 53 9) ∧
    lenOf (setTimestamp 1000 (List.replicate 53 9)) = lenOf (List.replicate 53 9) ∧
    idOf (setTimestamp 1000 (List.replicate 53 9)) = idOf (List.replicate 53 9) ∧
    tokenOf (setTimestamp 1000 (List.replicate 53 9)) = tokenOf (List.replicate 53 9) ∧
    (setID (List.replicate 16 4) (List.replicate 53 9)).length = 53 ∧
    idOf (setID (List.replicate 16 4) (List.replicate 53 9)) = List.replicate 16 4 ∧
    typeOf (setID (List.replicate 16 4) (List.replicate 53 9)) = typeOf (List.replicate 53 9) ∧
    lenOf (setID (List.replicate 16 4) (List.replicate 53 9)) = lenOf (List.replicate 53 9) ∧
    tsOf (setID (List.replicate 16 4) (List.replicate 53 9)) = tsOf (List.replicate 53 9) ∧
    tokenOf (setID (List.replicate 16 4) (List.replicate 53 9)) = tokenOf (List.replicate 53 9) ∧
    (setToken (List.replicate 16 5) (List.replicate 53 9)).length = 53 ∧
    tokenOf (setToken (List.replicate 16 5) (List.replicate 53 9)) = List.replicate 16 5 ∧
    typeOf (setToken (List.replicate 16 5) (List.replicate 53 9)) = typeOf (List.replicate 53 9) ∧
    lenOf (setToken (List.replicate 16 5) (List.replicate 53 9)) = lenOf (List.replicate 53 9) ∧
    tsOf (setToken (List.replicate 16 5) (List.replicate 53 9)) = tsOf (List.replicate 53 9) ∧
    idOf (setToken (List.replicate 16 5) (List.replicate 53 9)) = idOf (List.replicate 53 9) :=
  claim_C8_header_layout 1 300 1000 (List.replicate 16 4) (List.replicate 16 5)
    (List.replicate 53 9) (by decide) (by decide) (by decide) (by decide)
    (by decide) (by decide)

end Chat.Msg

namespace Chat.Server

/-- **C9 counterexample**: the reason string sent with close code 1 is not
`"too many connections"` — the line comment in codes/codes.go (which
`enumer -linecomment` turns into `String()`) reads `"to many connections"`. -/
theorem claim_C9_counterexample :
    ¬ (codeString toManyConns = "too many connections") := by
  decide

/-- **C9 (amended)**: the close codes have values `StopServer = 0`,
`ToManyConns = 1`, `Done = 2`, and the application-level reason strings
attached by `closeConn` are `"stop server"`, `"to many connections"` (sic)
and `"bye"` respectively. -/
theorem claim_C9_close_codes :
    stopServer = 0 ∧ toManyConns = 1 ∧ doneCode = 2 ∧
    codeString stopServer = "stop server" ∧
    codeString toManyConns = "to many connections" ∧
    codeString doneCode = "bye" ∧
    ∀ conn : Nat,
      closeConn conn stopServer = (conn, 0, "stop server") ∧
      closeConn conn toManyConns = (conn, 1, "to many connections") ∧
      closeConn conn doneCode = (conn, 2, "bye") :=
  ⟨rfl, rfl, rfl, rfl, rfl, rfl, fun _ => ⟨rfl, rfl, rfl⟩⟩

end Chat.Server

namespace Chat.Handshake

/-- A login attempt only ends the client loop in the `authenticated` outcome
when the response it read was `"ok"` (`if string(resp) != "ok"` the loop
retries or fails). -/
theorem clientLoop_auth_ok (env : ClientEnv) (a : Nat) :
    ∀ (b : Nat) (tk : List Nat),
      (clientLoop env a).outcome = .authenticated b tk →
      env.loginResp b = okPld := by
  induction a using clientLoop.induct env with
  | case1 a snd ht =>
    intro b tk h
    unfold clientLoop at h
    rw [ht] at h
    simp at h
  | case2 a tk' fresh ht hok =>
    intro b tk h
    unfold clientLoop at h
    rw [ht] at h
    simp only [hok, if_pos] at h
    simp at h
    obtain ⟨hb, -⟩ := h
    exact hb ▸ hok
  | case3 a tk' fresh ht hok hmax =>
    intro b tk h
    unfold clientLoop at h
    rw [ht] at h
    simp [hok, hmax] at h
  | case4 a tk' fresh ht hok hmax ih =>
    intro b tk h
    unfold clientLoop at h
    rw [ht] at h
    simp [hok, hmax] at h
    exact ih b tk h

/-- **C2**: when every login attempt is answered with something other than
`"ok"` (and the token exchanges themselves succeed), the client makes
exactly 4 login attempts — the first plus 3 retries, each retry forced to
request a fresh token (`rep = attempt > 1`), with attempt 1 requesting one
only if the cached token is not 16 bytes — and then fails with
`ErrInternal`; and a client handshake can only ever end `authenticated` on
an attempt whose response was `"ok"`. -/
theorem claim_C2_client_retry_bound (env : ClientEnv)
    (htok : ∀ i, (env.tokenResp i).length = 16)
    (hno : ∀ i, env.loginResp i ≠ okPld) :
    clientHandshake env =
      ⟨.errInternal 4, 4, (if env.cached.length ≠ 16 then [1] else []) ++ [2, 3, 4]⟩ ∧
    ∀ (env' : ClientEnv) (b : Nat) (tk : List Nat),
      (clientHandshake env').outcome = .authenticated b tk →
      env'.loginResp b = okPld := by
  have e4 : clientLoop env 4 = ⟨.errInternal 4, 1, [4]⟩ := by
    unfold clientLoop
    simp [clientToken, htok 4, hno 4]
  have e3 : clientLoop env 3 = ⟨.errInternal 4, 2, [3, 4]⟩ := by
    unfold clientLoop
    simp [clientToken, htok 3, hno 3, e4]
  have e2 : clientLoop env 2 = ⟨.errInternal 4, 3, [2, 3, 4]⟩ := by
    unfold clientLoop
    simp [clientToken, htok 2, hno 2, e3]
  constructor
  · unfold clientHandshake clientLoop
    by_cases hc : env.cached.length = 16
    · simp [clientToken, hc, hno 1, e2]
    · simp [clientToken, hc, htok 1, hno 1, e2]
  · intro env' b tk h
    exact clientLoop_auth_ok env' 1 b tk h

/-- **C2 witness**: a client with no cached token against a server that
always answers `"no"`: 4 login attempts, fresh token requests on attempts
1 (invalid cache), 2, 3 and 4, ending in `ErrInternal`. -/
theorem claim_C2_witness :
    clientHandshake ⟨[], fun _ => List.replicate 16 1, fun _ => noPld⟩ =
      ⟨.errInternal 4, 4, [1, 2, 3, 4]⟩ ∧
    ∀ (env' : ClientEnv) (b : Nat) (tk : List Nat),
      (clientHandshake env').outcome = .authenticated b tk →
      env'.loginResp b = okPld := by
  have h := claim_C2_client_retry_bound ⟨[], fun _ => List.replicate 16 1, fun _ => noPld⟩
    (fun _ => show (List.replicate 16 1).length = 16 by decide)
    (fun _ => show noPld ≠ okPld by decide)
  exact ⟨by simpa using h.1, h.2⟩

end Chat.Handshake

namespace Chat.Handshake

/-- **C3**: in every reachable state of the server handshake loop (any
repository contents and mint counter), a `"login"` whose header token the
repository does not have is answered `"no"` and the loop returns to waiting
for the next message on the same stream with unchanged state; any payload
other than `"ack"`/`"login"` is likewise answered `"no"` with the loop
continuing — in neither case is the run ended or the stream given up — and
a step authenticates (ending the handshake) exactly when the payload is
`"login"` and the header token is in the repository, answered `"ok"`. -/
theorem claim_C3_server_reject_keeps_listening
    (repo : List (List Nat)) (mint : Nat → List Nat) (k : Nat) (m : SMsg)
    (rest : List SMsg) :
    (m.payload = loginPld → m.token ∉ repo →
      serverStep repo mint k m = .reply noPld repo k ∧
      serverRun repo mint k (m :: rest)
        = ((serverRun repo mint k rest).1.cons noPld, (serverRun repo mint k rest).2)) ∧
    (m.payload ≠ ackPld → m.payload ≠ loginPld →
      serverStep repo mint k m = .reply noPld repo k ∧
      serverRun repo mint k (m :: rest)
        = ((serverRun repo mint k rest).1.cons noPld, (serverRun repo mint k rest).2)) ∧
    (∀ (resp tok : List Nat),
      serverStep repo mint k m = .auth resp tok ↔
      (m.payload = loginPld ∧ m.token ∈ repo ∧ resp = okPld ∧ tok = m.token)) := by
  refine ⟨?_, ?_, ?_⟩
  · intro hp htok
    have hstep : serverStep repo mint k m = .reply noPld repo k := by
      unfold serverStep
      rw [hp]
      simp [ackPld, loginPld, htok]
    refine ⟨hstep, ?_⟩
    conv_lhs => unfold serverRun
    rw [hstep]
  · intro ha hl
    have hstep : serverStep repo mint k m = .reply noPld repo k := by
      unfold serverStep
      simp [ha, hl]
    refine ⟨hstep, ?_⟩
    conv_lhs => unfold serverRun
    rw [hstep]
  · intro resp tok
    constructor
    · intro hstep
      unfold serverStep at hstep
      by_cases ha : m.payload = ackPld
      · rw [if_pos ha] at hstep
        exact absurd hstep (by simp)
      · rw [if_neg ha] at hstep
        by_cases hl : m.payload = loginPld
        · rw [if_pos hl] at hstep
          by_cases htok : m.token ∈ repo
          · rw [if_pos htok] at hstep
            injection hstep with h1 h2
            exact ⟨hl, htok, h1.symm, h2.symm⟩
          · rw [if_neg htok] at hstep
            exact absurd hstep (by simp)
        · rw [if_neg hl] at hstep
          exact absurd hstep (by simp)
    · intro ⟨hl, htok, hresp, htk⟩
      unfold serverStep
      rw [if_neg (show ¬ (m.payload = ackPld) by rw [hl]; decide)]
      rw [if_pos hl, if_pos htok, hresp, htk]

/-- **C3 witness**: a concrete bad login (token `8…8` not in a repository
holding only `9…9`) is answered `"no"` and the server keeps processing the
rest of the stream, here reaching `awaiting`; the same login against a
repository that has the token authenticates with `"ok"`. -/
theorem claim_C3_witness :
    serverRun [List.replicate 16 9] (fun _ => []) 0
        [⟨List.replicate 16 8, loginPld⟩]
      = ([noPld], .awaiting) ∧
    serverRun [List.replicate 16 8] (fun _ => []) 0
        [⟨List.replicate 16 8, loginPld⟩]
      = ([okPld], .authenticated (List.replicate 16 8)) := by
  have h := claim_C3_server_reject_keeps_listening [List.replicate 16 9] (fun _ => []) 0
    ⟨List.replicate 16 8, loginPld⟩ []
  constructor
  · rw [(h.1 rfl (by decide)).2]
    rfl
  · rfl

end Chat.Handshake

namespace Chat.Server

/-- **C6**: after one connection has been accepted and its handling task has
fully finished (handler returned, the deferred cleanup closed it with
`Done` and removed it from the tracked set), `Shutdown` with an unexpired
deadline still does not return early: `serve` does `sessionsWG.Add(1)` per
connection but no code path calls `Done()`, so the wait-group counter stays
1 and `sessionsWG.Wait()` never returns — the `select` only ends when the
deadline context fires (`beforeDeadline = false`), although there is
nothing left to force-close (`closed = []`). -/
theorem claim_C6_shutdown_never_early :
    (serverShutdown ⟨none, fun _ => none⟩
        (finishTask 1 (acceptConn 1 (runStart newServer)))).beforeDeadline = false ∧
    (serverShutdown ⟨none, fun _ => none⟩
        (finishTask 1 (acceptConn 1 (runStart newServer)))).closed = [] ∧
    (serverShutdown ⟨none, fun _ => none⟩
        (finishTask 1 (acceptConn 1 (runStart newServer)))).errs = [] ∧
    (finishTask 1 (acceptConn 1 (runStart newServer))).wgCount = 1 ∧
    (finishTask 1 (acceptConn 1 (runStart newServer))).tracked = [] ∧
    (finishTask 1 (acceptConn 1 (runStart newServer))).inflight = [] ∧
    (serverShutdown ⟨none, fun _ => none⟩ (runStart newServer)).beforeDeadline = true := by
  refine ⟨?_, ?_, ?_, ?_, ?_, ?_, ?_⟩ <;> rfl

/-- **C7**: on a running server, `Stop` cancels the manager context, closes
the listener, atomically takes and clears the whole tracked set, closes
every connection that was in it with `StopServer` (and its reason string),
returns the join of the listener-close error and every connection-close
error in order with none discarded, and neither touches the session
wait-group nor the in-flight tasks (it does not wait for them), its closed
set and errors being independent of what is still in flight. -/
theorem claim_C7_stop_closes_all (env : SrvEnv) (st : SrvState)
    (hc : st.cancelSet = true) (hl : st.lnrSet = true) :
    serverStop env st =
      ⟨false,
       { st with cancelled := true, lnrClosed := true, tracked := [] },
       st.tracked.map (fun c => closeConn c stopServer),
       joinErrs ((env.lnrCloseErr).map SrvErr.lnrClose ::
         st.tracked.map (fun c => (env.connCloseErr c).map (SrvErr.connClose c))),
       true⟩ ∧
    (serverStop env st).state.wgCount = st.wgCount ∧
    (serverStop env st).state.inflight = st.inflight ∧
    ∀ fl : List Nat,
      (serverStop env { st with inflight := fl }).closed = (serverStop env st).closed ∧
      (serverStop env { st with inflight := fl }).errs = (serverStop env st).errs := by
  unfold serverStop
  simp [hc, hl]

/-- **C7 witness**: `Stop` on a concrete running server tracking connections
1 and 2 (connection 1 mid-handling), where closing the listener fails with
error 5 and closing connection 2 fails with error 7: both connections are
closed with `StopServer`, the tracked set is left empty, and both errors are
returned joined. -/
theorem claim_C7_witness :
    serverStop ⟨some 5, fun c => if c = 2 then some 7 else none⟩
        ⟨true, true, false, false, 3, [1, 2], [1]⟩ =
      ⟨false, ⟨true, true, true, true, 3, [], [1]⟩,
       [(1, 0, "stop server"), (2, 0, "stop server")],
       [SrvErr.lnrClose 5, SrvErr.connClose 2 7], true⟩ ∧
    (serverStop ⟨some 5, fun c => if c = 2 then some 7 else none⟩
        ⟨true, true, false, false, 3, [1, 2], [1]⟩).state.wgCount = 3 ∧
    (serverStop ⟨some 5, fun c => if c = 2 then some 7 else none⟩
        ⟨true, true, false, false, 3, [1, 2], [1]⟩).state.inflight = [1] := by
  have h := claim_C7_stop_closes_all ⟨some 5, fun c => if c = 2 then some 7 else none⟩
    ⟨true, true, false, false, 3, [1, 2], [1]⟩ rfl rfl
  exact ⟨by rw [h.1]; rfl, h.2.1, h.2.2.1⟩

/-- **C10**: `Stop()` and `Shutdown(ctx)` on a `Server` whose `Run` has not
yet set the cancel function and listener call the nil `cancel` (and would
hit the nil listener) of the zero-initialized server and panic instead of
returning an error; and no `Stop`/`Shutdown` ever returns the declared
`ErrServerNotRunning` error — its joined errors only wrap listener- and
connection-close transport errors. -/
theorem claim_C10_stop_before_run_panics :
    (∀ env : SrvEnv, (serverStop env newServer).panicked = true) ∧
    (∀ env : SrvEnv, (serverShutdown env newServer).panicked = true) ∧
    (∀ (env : SrvEnv) (st : SrvState),
      SrvErr.serverNotRunning ∉ (serverStop env st).errs) ∧
    (∀ (env : SrvEnv) (st : SrvState),
      SrvErr.serverNotRunning ∉ (serverShutdown env st).errs) := by
  refine ⟨fun env => rfl, fun env => rfl, ?_, ?_⟩ <;>
  · intro env st hmem
    simp only [serverStop, serverShutdown] at hmem
    split at hmem
    · simp at hmem
    · split at hmem
      · simp at hmem
      · simp only [joinErrs, List.mem_filterMap, id, List.mem_cons, List.mem_map,
          Option.map_eq_some'] at hmem
        obtain ⟨a, ha, haid⟩ := hmem
        subst haid
        rcases ha with ha | ⟨c, _, hc⟩
        · obtain ⟨e, -, he⟩ := Option.map_eq_some'.mp ha.symm
          exact SrvErr.noConfusion he
        · obtain ⟨e, -, he⟩ := Option.map_eq_some'.mp hc
          exact SrvErr.noConfusion he

end Chat.Server

namespace Chat.Msg

/-- **C1 counterexample**: with a payload of exactly `2^32` bytes,
`Message.Write` stores `uint32(len(pld)) = 0` in the length field, so
decoding the encoded frame finds a header declaring length 0 and draining
the payload chunks yields no bytes at all, while the original payload is
nonempty — the round trip fails at this input, so it does not hold for
*every* payload byte sequence. -/
theorem claim_C1_counterexample :
    msgRcv (msgWrite (setToken (List.replicate 16 3)
        (setType 1 (newMsgHdr (List.replicate 16 2) 7))) (List.replicate (2 ^ 32) 0))
      = some (setLen (2 ^ 32) (setToken (List.replicate 16 3)
            (setType 1 (newMsgHdr (List.replicate 16 2) 7))),
          List.replicate (2 ^ 32) 0) ∧
    (msgRead (lenOf (setLen (2 ^ 32) (setToken (List.replicate 16 3)
        (setType 1 (newMsgHdr (List.replicate 16 2) 7)))))
      (List.replicate (2 ^ 32) 0)).flatten = [] ∧
    List.replicate (2 ^ 32) (0 : Nat) ≠ [] := by
  have hlen4 : (setToken (List.replicate 16 3)
      (setType 1 (newMsgHdr (List.replicate 16 2) 7))).length = 53 := by decide
  have h5 : (setLen (2 ^ 32) (setToken (List.replicate 16 3)
      (setType 1 (newMsgHdr (List.replicate 16 2) 7)))).length = 53 :=
    setLen_length _ _ hlen4
  have hlen0 : lenOf (setLen (2 ^ 32) (setToken (List.replicate 16 3)
      (setType 1 (newMsgHdr (List.replicate 16 2) 7)))) = 0 := by
    unfold lenOf offLen
    rw [readAt_setLen _ _ hlen4]
    norm_num [lenBytes, beVal]
  -- generalize the 2^32-byte payload so nothing ever normalizes the list
  have key : ∀ pld : List Nat, pld.length = 2 ^ 32 →
      msgRcv (msgWrite (setToken (List.replicate 16 3)
          (setType 1 (newMsgHdr (List.replicate 16 2) 7))) pld)
        = some (setLen (2 ^ 32) (setToken (List.replicate 16 3)
              (setType 1 (newMsgHdr (List.replicate 16 2) 7))), pld) ∧
      (msgRead (lenOf (setLen (2 ^ 32) (setToken (List.replicate 16 3)
          (setType 1 (newMsgHdr (List.replicate 16 2) 7)))))
        pld).flatten = [] ∧
      pld ≠ [] := by
    intro pld hp
    have hw : msgWrite (setToken (List.replicate 16 3)
        (setType 1 (newMsgHdr (List.replicate 16 2) 7))) pld
        = setLen pld.length (setToken (List.replicate 16 3)
            (setType 1 (newMsgHdr (List.replicate 16 2) 7))) ++ pld := by
      simp [msgWrite, writeFull]
    refine ⟨?_, ?_, ?_⟩
    · rw [hw, hp, msgRcv_eq]
      rw [if_pos (by simp only [List.length_append, h5]; omega)]
      rw [List.take_left' h5, List.drop_left' h5]
    · rw [hlen0, msgRead_flatten 0 pld (Nat.zero_le _)]
      exact List.take_zero pld
    · intro hcon
      rw [hcon] at hp
      exact absurd hp (by norm_num)
  exact key (List.replicate (2 ^ 32) 0) (by rw [List.length_replicate])

end Chat.Msg

namespace Chat.Msg

/-- **C5 counterexample**: with a payload of exactly `2^32` bytes,
`Message.Write` writes the whole payload (the bytes after the 53-byte
header on the wire are all `2^32` of them), yet it stored
`uint32(len(pld)) = 0` in the length field, so the encoded header's `Len()`
is 0 and not the number of payload bytes actually written — the claim fails
for this payload byte sequence. -/
theorem claim_C5_counterexample :
    lenOf ((msgWrite (List.replicate 53 7) (List.replicate (2 ^ 32) 0)).take 53) = 0 ∧
    (msgWrite (List.replicate 53 7) (List.replicate (2 ^ 32) 0)).drop 53
      = List.replicate (2 ^ 32) 0 ∧
    (List.replicate (2 ^ 32) (0 : Nat)).length ≠ 0 := by
  have hl : (List.replicate 53 (7 : Nat)).length = 53 := by decide
  -- generalize the 2^32-byte payload so nothing ever normalizes the list
  have key : ∀ pld : List Nat, pld.length = 2 ^ 32 →
      lenOf ((msgWrite (List.replicate 53 7) pld).take 53) = 0 ∧
      (msgWrite (List.replicate 53 7) pld).drop 53 = pld := by
    intro pld hp
    have h5 : (setLen pld.length (List.replicate 53 7)).length = 53 :=
      setLen_length _ _ hl
    have hw : msgWrite (List.replicate 53 7) pld
        = setLen pld.length (List.replicate 53 7) ++ pld := by
      simp [msgWrite, writeFull]
    constructor
    · rw [hw, List.take_left' h5, hp]
      unfold lenOf offLen
      rw [readAt_setLen _ _ hl]
      norm_num [lenBytes, beVal]
    · rw [hw, List.drop_left' h5]
  refine ⟨(key _ (by rw [List.length_replicate])).1,
    (key _ (by rw [List.length_replicate])).2, ?_⟩
  rw [List.length_replicate]
  norm_num

end Chat.Msg
